import Mathlib

/-!
Verification of the Triton vector-addition example
(`src/triton/vector_addition.py`): a masked block-parallel element-wise
addition kernel (`add_kernel`), its host-side launcher (`add`), and the
bandwidth arithmetic of the benchmark harness (`benchmark`).

The embedding is shallow.  Device memory for one buffer is a total function
`Nat → α` from offsets to elements; a `torch.Tensor` is its flat data list
together with its `is_cuda` residency flag.  A masked `tl.load` at a
masked-out lane yields an arbitrary value `junk` (Triton leaves those lanes
unspecified), and a masked `tl.store` updates only the lanes whose mask bit
is set.  The asynchronous grid launch is modelled as folding the kernel over
the block indices `0, 1, ..., grid-1`; since the blocks write pairwise
disjoint offset sets (proved below), this fold computes the same final
memory as any parallel/interleaved execution, i.e. the state observed after
synchronizing on completion.  Element values are kept abstract in an
arbitrary type with `Add` (the kernel applies `+` lane-wise and nothing
else).  The `assert` in `add` is modelled by returning `none` when the
residency check fails.
-/

/-- A `torch.Tensor`: a flat buffer of elements plus its device-residency
flag (`Tensor.is_cuda` mirrors `tensor.is_cuda`). -/
structure Tensor (α : Type) where
  data : List α
  is_cuda : Bool
  deriving DecidableEq

/-- `triton.cdiv(a, b) = (a + b - 1) // b`. -/
def cdiv (a b : Nat) : Nat := (a + b - 1) / b

/-- `tl.arange(0, n) = [0, 1, ..., n-1]`. -/
def arange (n : Nat) : List Nat := List.range n

/-- A masked `tl.store`: one entry per lane, `(offset, mask bit, value)`;
the lanes whose mask bit is set update the memory at their offset. -/
def maskedStore {α : Type} (entries : List (Nat × Bool × α)) (m : Nat → α) :
    Nat → α :=
  entries.foldl (fun acc e => if e.2.1 then Function.update acc e.1 e.2.2 else acc) m

/-- The Triton kernel `add_kernel(x_ptr, y_ptr, output_ptr, n_elements,
BLOCK_SIZE)` for one program id `pid` (= `tl.program_id(axis=0)`): computes
`block_start = pid * BLOCK_SIZE`, the candidate offsets
`block_start + tl.arange(0, BLOCK_SIZE)`, the mask `offsets < n_elements`,
performs the two masked loads (masked-out lanes receive the unspecified
value `junk`), adds lane-wise, and masked-stores into the output.  Returns
the updated output memory. -/
def add_kernel {α : Type} [Add α] (x_ptr y_ptr output_ptr : Nat → α)
    (n_elements BLOCK_SIZE : Nat) (junk : α) (pid : Nat) : Nat → α :=
  let block_start := pid * BLOCK_SIZE
  let offsets := (arange BLOCK_SIZE).map (fun i => block_start + i)
  let mask := offsets.map (fun o => decide (o < n_elements))
  let x := List.zipWith (fun o b => if b then x_ptr o else junk) offsets mask
  let y := List.zipWith (fun o b => if b then y_ptr o else junk) offsets mask
  let output := List.zipWith (· + ·) x y
  maskedStore (offsets.zip (mask.zip output)) output_ptr

/-- The SPMD launch `add_kernel[grid](x, y, output, n_elements,
BLOCK_SIZE=...)` with `grid = (cdiv(n_elements, BLOCK_SIZE),)`: runs the
kernel once per block index in `[0, cdiv n_elements BLOCK_SIZE)` over the
output memory `init`. -/
def dispatch {α : Type} [Add α] (x_ptr y_ptr : Nat → α)
    (n_elements BLOCK_SIZE : Nat) (junk : α) (init : Nat → α) : Nat → α :=
  (List.range (cdiv n_elements BLOCK_SIZE)).foldl
    (fun m pid => add_kernel x_ptr y_ptr m n_elements BLOCK_SIZE junk pid) init

/-- `torch.empty_like(x)`: same length and residency as `x`, uninitialized
content (supplied by the arbitrary `uninit`). -/
def empty_like {α : Type} (x : Tensor α) (uninit : Nat → α) : Tensor α :=
  ⟨(List.range x.data.length).map uninit, x.is_cuda⟩

/-- The memory a tensor's data occupies: reading past the end of the buffer
is out-of-bounds and yields the arbitrary value `junk`. -/
def tensorMem {α : Type} (t : Tensor α) (junk : α) : Nat → α :=
  fun i => t.data.getD i junk

/-- The launcher `add(x, y)`: allocates `output = torch.empty_like(x)`,
asserts `x.is_cuda and y.is_cuda and output.is_cuda` (modelled by `none` on
failure), takes `n_elements = output.numel()`, and launches the kernel on
the grid `cdiv(n_elements, BLOCK_SIZE)` with `BLOCK_SIZE=1024`.  The result
tensor holds the first `n_elements` cells of the final output memory. -/
def add {α : Type} [Add α] (x y : Tensor α) (uninit : Nat → α) (junk : α) :
    Option (Tensor α) :=
  let output := empty_like x uninit
  if x.is_cuda && y.is_cuda && output.is_cuda then
    let n_elements := output.data.length
    let mem := dispatch (tensorMem x junk) (tensorMem y junk) n_elements 1024
      junk (tensorMem output junk)
    some ⟨(List.range n_elements).map mem, output.is_cuda⟩
  else
    none

/-- The set of offsets a block actually touches: the candidate range
`pid * BLOCK_SIZE + tl.arange(0, BLOCK_SIZE)` filtered by the mask
`offset < n_elements` (lines 28-32 of the source). -/
def validOffsets (pid BLOCK_SIZE n_elements : Nat) : List Nat :=
  ((arange BLOCK_SIZE).map (fun i => pid * BLOCK_SIZE + i)).filter
    (fun o => decide (o < n_elements))

/-- The number of kernel instances the launcher dispatches: the length of
the grid `[0, cdiv n_elements BLOCK_SIZE)` that `dispatch` folds over. -/
def numDispatches (n_elements BLOCK_SIZE : Nat) : Nat :=
  (List.range (cdiv n_elements BLOCK_SIZE)).length

/-- The `gbps` lambda of `benchmark`:
`gbps = lambda ms: 3 * x.numel() * x.element_size() / ms * 1e-6`
over exact rationals. -/
def gbps (numel element_size : Nat) (ms : ℚ) : ℚ :=
  3 * numel * element_size / ms * (1 / 1000000)

/-- The triple `benchmark` returns.  `do_bench` (external library) is
modelled by its reported times: with `quantiles = [0.5, 0.2, 0.8]` the
destructuring `ms, min_ms, max_ms = do_bench(...)` binds `ms` to the median
time, `min_ms` to the 20th-percentile time and `max_ms` to the
80th-percentile time, so `t = (t_median, t_p20, t_p80)`.  The source then
returns `gbps(ms), gbps(max_ms), gbps(min_ms)`. -/
def benchmark (numel element_size : Nat) (t : ℚ × ℚ × ℚ) : ℚ × ℚ × ℚ :=
  let ms := t.1
  let min_ms := t.2.1
  let max_ms := t.2.2
  (gbps numel element_size ms, gbps numel element_size max_ms,
    gbps numel element_size min_ms)

/-- The bandwidth figure as the specification words it:
`bandwidth = 3 * n_elements * element_size_bytes / time * constant`
with the constant unit conversion `1e-6` for milliseconds to GB/s. -/
def bandwidth_spec (n_elements element_size_bytes : Nat) (t : ℚ) : ℚ :=
  3 * n_elements * element_size_bytes / t * (1 / 1000000)

/-- The return triple as the claim words it: the bandwidths corresponding
to the median, 20th-percentile, and 80th-percentile times, in that order. -/
def benchmark_spec (numel element_size : Nat) (t : ℚ × ℚ × ℚ) : ℚ × ℚ × ℚ :=
  (bandwidth_spec numel element_size t.1,
    bandwidth_spec numel element_size t.2.1,
    bandwidth_spec numel element_size t.2.2)

/-! ### Pointwise semantics of the masked store, the kernel, and the launch -/

/-- Reading memory after a masked store whose lanes are
`(s + i, s + i < n, val i)` for `i < B`: offset `j` holds `val (j - s)` if
`j` lies in the block's candidate range and the mask admitted it, and is
untouched otherwise. -/
lemma maskedStore_range_map {α : Type} (s n : Nat) (val : Nat → α) :
    ∀ (B : Nat) (m : Nat → α) (j : Nat),
      maskedStore ((List.range B).map fun i => (s + i, decide (s + i < n), val i)) m j
        = if s ≤ j ∧ j < s + B ∧ j < n then val (j - s) else m j := by
  intro B
  induction B with
  | zero =>
    intro m j
    rw [if_neg (by omega)]
    rfl
  | succ B ih =>
    intro m j
    simp only [List.range_succ, List.map_append, List.map_cons, List.map_nil]
    have hsplit :
        maskedStore
            (((List.range B).map fun i => (s + i, decide (s + i < n), val i)) ++
              [(s + B, decide (s + B < n), val B)]) m
          = (fun acc : Nat → α =>
              if decide (s + B < n) then Function.update acc (s + B) (val B) else acc)
            (maskedStore ((List.range B).map fun i => (s + i, decide (s + i < n), val i)) m) := by
      simp [maskedStore, List.foldl_append]
    rw [hsplit]
    dsimp only
    by_cases hn : s + B < n
    · rw [decide_eq_true hn, if_pos rfl, Function.update_apply]
      by_cases hj : j = s + B
      · subst hj
        rw [if_pos rfl, if_pos (by omega)]
        congr 1
        omega
      · rw [if_neg hj, ih]
        by_cases hc : s ≤ j ∧ j < s + B ∧ j < n
        · rw [if_pos hc, if_pos (by omega)]
        · rw [if_neg hc, if_neg (by omega)]
    · rw [decide_eq_false hn, if_neg Bool.false_ne_true, ih]
      by_cases hc : s ≤ j ∧ j < s + B ∧ j < n
      · rw [if_pos hc, if_pos (by omega)]
      · rw [if_neg hc, if_neg (by omega)]

/-- The lane list of `add_kernel` in fused form: one entry per lane index. -/
lemma add_kernel_eq {α : Type} [Add α] (x_ptr y_ptr output_ptr : Nat → α)
    (n B : Nat) (junk : α) (pid : Nat) :
    add_kernel x_ptr y_ptr output_ptr n B junk pid
      = maskedStore ((List.range B).map fun i =>
          (pid * B + i, decide (pid * B + i < n),
            (if decide (pid * B + i < n) then x_ptr (pid * B + i) else junk) +
              (if decide (pid * B + i < n) then y_ptr (pid * B + i) else junk)))
          output_ptr := by
  unfold add_kernel arange
  dsimp only
  refine congrArg (fun e => maskedStore e output_ptr) ?_
  apply List.ext_getElem
  · simp
  · intro i h1 h2
    simp

/-- Pointwise effect of one kernel instance on the output memory. -/
lemma add_kernel_apply {α : Type} [Add α] (x_ptr y_ptr output_ptr : Nat → α)
    (n B : Nat) (junk : α) (pid j : Nat) :
    add_kernel x_ptr y_ptr output_ptr n B junk pid j
      = if pid * B ≤ j ∧ j < pid * B + B ∧ j < n then x_ptr j + y_ptr j
        else output_ptr j := by
  rw [add_kernel_eq, maskedStore_range_map]
  by_cases hc : pid * B ≤ j ∧ j < pid * B + B ∧ j < n
  · rw [if_pos hc, if_pos hc]
    have he : pid * B + (j - pid * B) = j := by omega
    rw [he]
    simp [hc.2.2]
  · rw [if_neg hc, if_neg hc]

/-- Effect of folding the kernel over block indices `0, ..., g-1`: the cells
covered by those blocks and admitted by the mask hold the element-wise sum;
everything else is untouched. -/
lemma foldl_add_kernel_apply {α : Type} [Add α] (x_ptr y_ptr : Nat → α)
    (n B : Nat) (junk : α) :
    ∀ (g : Nat) (init : Nat → α) (j : Nat),
      ((List.range g).foldl
          (fun m pid => add_kernel x_ptr y_ptr m n B junk pid) init) j
        = if j < g * B ∧ j < n then x_ptr j + y_ptr j else init j := by
  intro g
  induction g with
  | zero =>
    intro init j
    rw [if_neg (by omega)]
    rfl
  | succ g ih =>
    intro init j
    rw [List.range_succ, List.foldl_append, List.foldl_cons, List.foldl_nil,
      add_kernel_apply, ih, Nat.succ_mul]
    generalize g * B = t
    split_ifs <;> first | rfl | (exfalso; omega)

/-- The grid size covers every element: `n ≤ cdiv n B * B` when `B > 0`. -/
lemma le_cdiv_mul (n B : Nat) (hB : 0 < B) : n ≤ cdiv n B * B := by
  unfold cdiv
  have h := (Nat.div_lt_iff_lt_mul hB).mp
    (Nat.lt_succ_self ((n + B - 1) / B))
  rw [Nat.succ_mul] at h
  generalize hT : (n + B - 1) / B * B = t at h ⊢
  omega

/-- The grid is not oversized: `cdiv n B * B < n + B` when `B > 0`. -/
lemma cdiv_mul_lt (n B : Nat) (hB : 0 < B) : cdiv n B * B < n + B := by
  unfold cdiv
  have h := Nat.div_mul_le_self (n + B - 1) B
  generalize hT : (n + B - 1) / B * B = t at h ⊢
  omega

/-- Pointwise value of the full launch: every offset below `n_elements`
holds the element-wise sum, every other offset is untouched. -/
lemma dispatch_apply {α : Type} [Add α] (x_ptr y_ptr : Nat → α)
    (n B : Nat) (junk : α) (init : Nat → α) (hB : 0 < B) (j : Nat) :
    dispatch x_ptr y_ptr n B junk init j
      = if j < n then x_ptr j + y_ptr j else init j := by
  unfold dispatch
  rw [foldl_add_kernel_apply]
  have h := le_cdiv_mul n B hB
  generalize hT : cdiv n B * B = t at h ⊢
  split_ifs <;> first | rfl | (exfalso; omega)

/-! ### The valid offsets of a block -/

/-- An offset is in a block's valid set iff it lies in the block's candidate
range and below `n_elements`. -/
lemma mem_validOffsets {o pid B n : Nat} :
    o ∈ validOffsets pid B n ↔ pid * B ≤ o ∧ o < pid * B + B ∧ o < n := by
  unfold validOffsets arange
  simp only [List.mem_filter, List.mem_map, List.mem_range, decide_eq_true_eq]
  constructor
  · rintro ⟨⟨i, hi, rfl⟩, hn⟩
    omega
  · rintro ⟨h1, h2, h3⟩
    exact ⟨⟨o - pid * B, by omega, by omega⟩, h3⟩

/-- Two blocks with `p < q` share no valid offset. -/
lemma validOffsets_disjoint_lt {p q o B n : Nat} (hpq : p < q)
    (h1 : o ∈ validOffsets p B n) (h2 : o ∈ validOffsets q B n) : False := by
  rw [mem_validOffsets] at h1 h2
  have h3 : (p + 1) * B ≤ q * B := Nat.mul_le_mul_right B hpq
  rw [Nat.succ_mul] at h3
  obtain ⟨hp1, hp2, -⟩ := h1
  obtain ⟨hq1, -, -⟩ := h2
  generalize p * B = a at hp1 hp2 h3
  generalize q * B = b at hq1 h3
  omega

/-! ### The launcher in normal form -/

/-- `torch.empty_like` preserves the length. -/
lemma empty_like_length {α : Type} (x : Tensor α) (u : Nat → α) :
    (empty_like x u).data.length = x.data.length := by
  simp [empty_like]

/-- When both inputs are device-resident, `add` returns the first
`x.data.length` cells of the dispatched output memory. -/
lemma add_eq_some {α : Type} [Add α] (x y : Tensor α) (u : Nat → α) (junk : α)
    (hx : x.is_cuda = true) (hy : y.is_cuda = true) :
    add x y u junk
      = some ⟨(List.range x.data.length).map
          (dispatch (tensorMem x junk) (tensorMem y junk) x.data.length 1024
            junk (tensorMem (empty_like x u) junk)), true⟩ := by
  unfold add
  dsimp only
  simp only [empty_like_length]
  have hcu : (empty_like x u).is_cuda = true := by simp [empty_like, hx]
  rw [hx, hy, hcu]
  rfl

/-- Reading a mapped range at an in-range index. -/
lemma getD_map_range {α : Type} (f : Nat → α) (n i : Nat) (d : α)
    (h : i < n) : ((List.range n).map f).getD i d = f i := by
  have hl : i < ((List.range n).map f).length := by simp [h]
  rw [List.getD_eq_getElem _ _ hl]
  simp

/-! ### Claims -/

/-- C1: for all pairs of equal-length device-resident buffers `x` and `y`,
every element of the buffer returned by `add x y` equals the element-wise
sum of the corresponding input elements, once the dispatched work has
completed. -/
theorem add_elementwise_correct {α : Type} [Add α] (x y : Tensor α)
    (uninit : Nat → α) (junk d : α)
    (hx : x.is_cuda = true) (hy : y.is_cuda = true)
    (hlen : y.data.length = x.data.length)
    (i : Nat) (hi : i < x.data.length) :
    ∃ out : Tensor α, add x y uninit junk = some out ∧
      out.data.getD i d = x.data.getD i d + y.data.getD i d := by
  refine ⟨_, add_eq_some x y uninit junk hx hy, ?_⟩
  rw [getD_map_range _ _ _ _ hi,
    dispatch_apply _ _ _ _ _ _ (by norm_num) i, if_pos hi]
  unfold tensorMem
  rw [List.getD_eq_getElem x.data junk hi, List.getD_eq_getElem x.data d hi,
    List.getD_eq_getElem y.data junk (by omega),
    List.getD_eq_getElem y.data d (by omega)]

/-- Witness for C1 at a concrete input. -/
theorem add_elementwise_correct_witness :
    ∃ out : Tensor Int,
      add ⟨[1, 2, 3], true⟩ ⟨[10, 20, 30], true⟩ (fun _ => 0) 0 = some out ∧
        out.data.getD 2 0
          = (Tensor.mk [1, 2, 3] true).data.getD 2 0
              + (Tensor.mk [10, 20, 30] true).data.getD 2 0 :=
  add_elementwise_correct ⟨[1, 2, 3], true⟩ ⟨[10, 20, 30], true⟩ (fun _ => 0)
    0 0 rfl rfl rfl 2 (by decide)

/-- C2: distinct blocks have disjoint valid-offset sets, and the valid
offsets of the blocks `0, ..., cdiv n B - 1` together cover exactly the
index range `[0, n)`. -/
theorem validOffsets_partition (B n : Nat) (hB : 0 < B) :
    (∀ p q o, p ≠ q → o ∈ validOffsets p B n → o ∉ validOffsets q B n) ∧
    (∀ o, (∃ p, p < cdiv n B ∧ o ∈ validOffsets p B n) ↔ o < n) := by
  constructor
  · intro p q o hpq h1 h2
    rcases Nat.lt_or_ge p q with h | h
    · exact validOffsets_disjoint_lt h h1 h2
    · rcases Nat.lt_or_ge q p with h' | h'
      · exact validOffsets_disjoint_lt h' h2 h1
      · exact hpq (by omega)
  · intro o
    constructor
    · rintro ⟨p, -, ho⟩
      exact (mem_validOffsets.mp ho).2.2
    · intro ho
      refine ⟨o / B, ?_, ?_⟩
      · exact (Nat.div_lt_iff_lt_mul hB).mpr
          (Nat.lt_of_lt_of_le ho (le_cdiv_mul n B hB))
      · refine mem_validOffsets.mpr ⟨Nat.div_mul_le_self o B, ?_, ho⟩
        have h2 := (Nat.div_lt_iff_lt_mul hB).mp (Nat.lt_succ_self (o / B))
        rw [Nat.succ_mul] at h2
        exact h2

/-- Witness for C2 at a concrete block size and element count. -/
theorem validOffsets_partition_witness :
    (∀ p q o, p ≠ q → o ∈ validOffsets p 4 10 → o ∉ validOffsets q 4 10) ∧
    (∀ o, (∃ p, p < cdiv 10 4 ∧ o ∈ validOffsets p 4 10) ↔ o < 10) :=
  validOffsets_partition 4 10 (by decide)

/-- C3: the mask keeps every access strictly below `n_elements`: offsets
`≥ n_elements` are never written; the kernel's behaviour does not depend on
input memory at offsets `≥ n_elements` (masked-out lanes load no memory
content, modelled by the arbitrary `junk`), so no out-of-bounds read can
influence it; and every in-bounds offset of the block is still read and
written with the element-wise sum. -/
theorem add_kernel_masked_safety {α : Type} [Add α]
    (x_ptr y_ptr x' y' output_ptr : Nat → α) (n B : Nat) (junk : α)
    (pid : Nat)
    (hx : ∀ o, o < n → x_ptr o = x' o) (hy : ∀ o, o < n → y_ptr o = y' o) :
    (∀ j, n ≤ j →
      add_kernel x_ptr y_ptr output_ptr n B junk pid j = output_ptr j) ∧
    (add_kernel x_ptr y_ptr output_ptr n B junk pid
      = add_kernel x' y' output_ptr n B junk pid) ∧
    (∀ j, pid * B ≤ j → j < pid * B + B → j < n →
      add_kernel x_ptr y_ptr output_ptr n B junk pid j = x_ptr j + y_ptr j) := by
  refine ⟨?_, ?_, ?_⟩
  · intro j hj
    rw [add_kernel_apply, if_neg (by omega)]
  · funext j
    rw [add_kernel_apply, add_kernel_apply]
    by_cases hc : pid * B ≤ j ∧ j < pid * B + B ∧ j < n
    · rw [if_pos hc, if_pos hc, hx j hc.2.2, hy j hc.2.2]
    · rw [if_neg hc, if_neg hc]
  · intro j h1 h2 h3
    rw [add_kernel_apply, if_pos ⟨h1, h2, h3⟩]

/-- Witness for C3 at a concrete block and element count not a multiple of
the block size. -/
theorem add_kernel_masked_safety_witness :
    (∀ j, 3 ≤ j →
      add_kernel (fun j => (j : Int)) (fun j => (2 * j : Int)) (fun _ => 0)
        3 2 7 1 j = (fun _ => (0 : Int)) j) ∧
    (add_kernel (fun j => (j : Int)) (fun j => (2 * j : Int)) (fun _ => 0)
        3 2 7 1
      = add_kernel (fun j => (j : Int)) (fun j => (2 * j : Int)) (fun _ => 0)
        3 2 7 1) ∧
    (∀ j, 1 * 2 ≤ j → j < 1 * 2 + 2 → j < 3 →
      add_kernel (fun j => (j : Int)) (fun j => (2 * j : Int)) (fun _ => 0)
        3 2 7 1 j = (j : Int) + 2 * j) :=
  add_kernel_masked_safety (fun j => (j : Int)) (fun j => (2 * j : Int))
    (fun j => (j : Int)) (fun j => (2 * j : Int)) (fun _ => 0) 3 2 7 1
    (fun _ _ => rfl) (fun _ _ => rfl)

/-- C4: for equal-length device-resident inputs, the buffer `add` returns
has the same length as both inputs. -/
theorem add_length_preservation {α : Type} [Add α] (x y : Tensor α)
    (uninit : Nat → α) (junk : α) (hx : x.is_cuda = true)
    (hy : y.is_cuda = true) (hlen : y.data.length = x.data.length) :
    ∃ out : Tensor α, add x y uninit junk = some out ∧
      out.data.length = x.data.length ∧ out.data.length = y.data.length := by
  refine ⟨_, add_eq_some x y uninit junk hx hy, by simp, by simp [hlen]⟩

/-- Witness for C4 at a concrete input. -/
theorem add_length_preservation_witness :
    ∃ out : Tensor Int,
      add ⟨[5, 6], true⟩ ⟨[7, 8], true⟩ (fun _ => 0) 0 = some out ∧
        out.data.length = (Tensor.mk [5, 6] true).data.length ∧
        out.data.length = (Tensor.mk [7, 8] true).data.length :=
  add_length_preservation ⟨[5, 6], true⟩ ⟨[7, 8], true⟩ (fun _ => 0) 0
    rfl rfl rfl

/-- C5: `add` succeeds exactly when the residency assertion passes, i.e.
when both inputs (and hence the output allocated by `empty_like`) are
device-resident; no other condition — in particular not a length match —
is checked, so mismatched-length device inputs still dispatch. -/
theorem add_single_failure_mode {α : Type} [Add α] (x y : Tensor α)
    (uninit : Nat → α) (junk : α) :
    (add x y uninit junk).isSome = (x.is_cuda && y.is_cuda) := by
  unfold add
  dsimp only
  have hcu : (empty_like x uninit).is_cuda = x.is_cuda := rfl
  rw [hcu]
  cases x.is_cuda <;> cases y.is_cuda <;> simp

/-- C6: the launcher dispatches the kernel exactly `cdiv n_elements
BLOCK_SIZE` times, the ceiling of the division (characterized by
`n ≤ g * B < n + B`); zero blocks for empty inputs (whose output is empty)
and exactly one block for `n_elements = 1` with `BLOCK_SIZE = 1024`. -/
theorem dispatch_grid_count (n B : Nat) (hB : 0 < B) :
    numDispatches n B = cdiv n B ∧
    n ≤ cdiv n B * B ∧
    cdiv n B * B < n + B ∧
    numDispatches 0 1024 = 0 ∧
    numDispatches 1 1024 = 1 ∧
    (∀ (x y : Tensor Int) (uninit : Nat → Int) (junk : Int),
      x.is_cuda = true → y.is_cuda = true → x.data.length = 0 →
      add x y uninit junk = some ⟨[], true⟩) := by
  refine ⟨by simp [numDispatches], le_cdiv_mul n B hB, cdiv_mul_lt n B hB,
    rfl, rfl, ?_⟩
  intro x y uninit junk hx hy hlen
  rw [add_eq_some x y uninit junk hx hy, hlen]
  rfl

/-- Witness for C6 at a concrete grid. -/
theorem dispatch_grid_count_witness :
    numDispatches 5 2 = cdiv 5 2 ∧
    5 ≤ cdiv 5 2 * 2 ∧
    cdiv 5 2 * 2 < 5 + 2 ∧
    numDispatches 0 1024 = 0 ∧
    numDispatches 1 1024 = 1 ∧
    (∀ (x y : Tensor Int) (uninit : Nat → Int) (junk : Int),
      x.is_cuda = true → y.is_cuda = true → x.data.length = 0 →
      add x y uninit junk = some ⟨[], true⟩) :=
  dispatch_grid_count 5 2 (by decide)

/-- C7: the block size has no functional effect on the output values: for
any two positive block sizes (and any uninitialized output contents) the
full dispatch produces the same buffer of values, and with the default
`BLOCK_SIZE = 1024` that buffer is the element-wise sum. -/
theorem block_size_no_functional_effect {α : Type} [Add α]
    (x_ptr y_ptr : Nat → α) (n : Nat) (junk : α) (B₁ B₂ : Nat)
    (init₁ init₂ : Nat → α) (h1 : 0 < B₁) (h2 : 0 < B₂) :
    (List.range n).map (dispatch x_ptr y_ptr n B₁ junk init₁)
      = (List.range n).map (dispatch x_ptr y_ptr n B₂ junk init₂) ∧
    (List.range n).map (dispatch x_ptr y_ptr n 1024 junk init₁)
      = (List.range n).map (fun j => x_ptr j + y_ptr j) := by
  constructor
  · apply List.map_congr_left
    intro j hj
    rw [List.mem_range] at hj
    rw [dispatch_apply _ _ _ _ _ _ h1 j, dispatch_apply _ _ _ _ _ _ h2 j,
      if_pos hj, if_pos hj]
  · apply List.map_congr_left
    intro j hj
    rw [List.mem_range] at hj
    rw [dispatch_apply _ _ _ _ _ _ (by norm_num) j, if_pos hj]

/-- Witness for C7 at two concrete block sizes. -/
theorem block_size_no_functional_effect_witness :
    (List.range 5).map
        (dispatch (fun j => (j : Int)) (fun j => (10 * j : Int)) 5 1 0
          (fun _ => 0))
      = (List.range 5).map
          (dispatch (fun j => (j : Int)) (fun j => (10 * j : Int)) 5 3 0
            (fun _ => 99)) ∧
    (List.range 5).map
        (dispatch (fun j => (j : Int)) (fun j => (10 * j : Int)) 5 1024 0
          (fun _ => 0))
      = (List.range 5).map (fun j => (j : Int) + 10 * j) :=
  block_size_no_functional_effect (fun j => (j : Int))
    (fun j => (10 * j : Int)) 5 0 1 3 (fun _ => 0) (fun _ => 99)
    (by decide) (by decide)

/-- C8: the dispatched kernel writes the output buffer at exactly the
offsets in `[0, n_elements)` — every such offset receives the element-wise
sum, every other offset keeps its prior content — and the inputs are only
read (the result depends on them only through their values at the valid
offsets; the input memories themselves are never stored to, as `dispatch`
threads only the output memory). -/
theorem add_write_footprint {α : Type} [Add α] (x_ptr y_ptr : Nat → α)
    (n B : Nat) (junk : α) (init : Nat → α) (hB : 0 < B) :
    (∀ j, n ≤ j → dispatch x_ptr y_ptr n B junk init j = init j) ∧
    (∀ j, j < n → dispatch x_ptr y_ptr n B junk init j = x_ptr j + y_ptr j) ∧
    (∀ x' y', (∀ o, o < n → x_ptr o = x' o) → (∀ o, o < n → y_ptr o = y' o) →
      dispatch x_ptr y_ptr n B junk init = dispatch x' y' n B junk init) := by
  refine ⟨?_, ?_, ?_⟩
  · intro j hj
    rw [dispatch_apply _ _ _ _ _ _ hB j, if_neg (by omega)]
  · intro j hj
    rw [dispatch_apply _ _ _ _ _ _ hB j, if_pos hj]
  · intro x' y' hx hy
    funext j
    rw [dispatch_apply _ _ _ _ _ _ hB j, dispatch_apply _ _ _ _ _ _ hB j]
    by_cases hj : j < n
    · rw [if_pos hj, if_pos hj, hx j hj, hy j hj]
    · rw [if_neg hj, if_neg hj]

/-- Witness for C8 at a concrete dispatch. -/
theorem add_write_footprint_witness :
    (∀ j, 3 ≤ j →
      dispatch (fun j => (j : Int)) (fun j => (5 * j : Int)) 3 2 7
        (fun _ => 42) j = (fun _ => (42 : Int)) j) ∧
    (∀ j, j < 3 →
      dispatch (fun j => (j : Int)) (fun j => (5 * j : Int)) 3 2 7
        (fun _ => 42) j = (j : Int) + 5 * j) ∧
    (∀ x' y' : Nat → Int,
      (∀ o, o < 3 → ((o : Nat) : Int) = x' o) →
      (∀ o, o < 3 → (5 * (o : Nat) : Int) = y' o) →
      dispatch (fun j => (j : Int)) (fun j => (5 * j : Int)) 3 2 7
          (fun _ => 42)
        = dispatch x' y' 3 2 7 (fun _ => 42)) :=
  add_write_footprint (fun j => (j : Int)) (fun j => (5 * j : Int)) 3 2 7
    (fun _ => 42) (by decide)

/-- C9 counterexample: the benchmark does not return the bandwidths in the
order (median time, 20th-percentile time, 80th-percentile time) — at the
times `(1, 2, 3)` the returned second component is the bandwidth at the
80th-percentile time, not at the 20th. -/
theorem benchmark_triple_order_counterexample :
    benchmark 1 4 (1, 2, 3) ≠ benchmark_spec 1 4 (1, 2, 3) := by
  intro h
  have h2 : (benchmark 1 4 (1, 2, 3)).2.1 = (benchmark_spec 1 4 (1, 2, 3)).2.1 := by
    rw [h]
  norm_num [benchmark, benchmark_spec, gbps, bandwidth_spec] at h2

/-- C9 (amended): each of the three returned figures is
`3 * numel * element_size / t * 1e-6` for its time `t`, and the triple is
ordered (bandwidth at the median time, bandwidth at the 80th-percentile
time, bandwidth at the 20th-percentile time). -/
theorem benchmark_bandwidth_formula (numel element_size : Nat)
    (t_med t_p20 t_p80 : ℚ) :
    benchmark numel element_size (t_med, t_p20, t_p80)
      = (bandwidth_spec numel element_size t_med,
          bandwidth_spec numel element_size t_p80,
          bandwidth_spec numel element_size t_p20) ∧
    (∀ t : ℚ, gbps numel element_size t
        = 3 * numel * element_size / t * (1 / 1000000)) :=
  ⟨rfl, fun _ => rfl⟩

/-- C10: the output's length and residency, and the processed element
count, come from the first input alone: even for mismatched lengths, `add`
returns a buffer of length `x.data.length` with `x`'s residency, and
processes exactly the offsets `[0, x.data.length)` (reading `y`'s memory at
those offsets, which is out of bounds — the arbitrary `junk` — where `y` is
shorter). -/
theorem add_shape_from_first_input {α : Type} [Add α] (x y : Tensor α)
    (uninit : Nat → α) (junk d : α) (hx : x.is_cuda = true)
    (hy : y.is_cuda = true) :
    ∃ out : Tensor α, add x y uninit junk = some out ∧
      out.data.length = x.data.length ∧
      out.is_cuda = x.is_cuda ∧
      (∀ i, i < x.data.length →
        out.data.getD i d = x.data.getD i d + tensorMem y junk i) := by
  refine ⟨_, add_eq_some x y uninit junk hx hy, by simp, by simp [hx], ?_⟩
  intro i hi
  rw [getD_map_range _ _ _ _ hi,
    dispatch_apply _ _ _ _ _ _ (by norm_num) i, if_pos hi]
  unfold tensorMem
  rw [List.getD_eq_getElem x.data junk hi, List.getD_eq_getElem x.data d hi]

/-- Witness for C10 at mismatched lengths (`x` longer than `y`). -/
theorem add_shape_from_first_input_witness :
    ∃ out : Tensor Int,
      add ⟨[1, 2, 3], true⟩ ⟨[10], true⟩ (fun _ => 0) 0 = some out ∧
        out.data.length = (Tensor.mk [1, 2, 3] true).data.length ∧
        out.is_cuda = (Tensor.mk ([1, 2, 3] : List Int) true).is_cuda ∧
        (∀ i, i < (Tensor.mk [1, 2, 3] true).data.length →
          out.data.getD i 0
            = (Tensor.mk [1, 2, 3] true).data.getD i 0
                + tensorMem (Tensor.mk [10] true) 0 i) :=
  add_shape_from_first_input ⟨[1, 2, 3], true⟩ ⟨[10], true⟩ (fun _ => 0) 0 0
    rfl rfl

set_option maxRecDepth 40000 in
example : add (⟨[1, 2, 3], true⟩ : Tensor Int) ⟨[10, 20, 30], true⟩
    (fun _ => 0) 0 = some ⟨[11, 22, 33], true⟩ := by decide

example : add (⟨[1, 2, 3], false⟩ : Tensor Int) ⟨[10, 20, 30], true⟩
    (fun _ => 0) 0 = none := by decide
